import Mathlib

/-!
# Verification of the mlcomp supervisor scheduling tick

Shallow embedding of the scheduling core of the repository:
* `src/mlcomp/server/back/supervisor.py` (`SupervisorBuilder`)
* `src/mlcomp/db/providers/task.py` (`TaskProvider`)

Python dicts that are mutated in place become explicit state passing;
fallible code (raised exceptions) returns `Except`.  Integer resource
quantities are modelled as `Int` (they are plain Python ints that may go
negative through subtraction); GPU slot vectors are `List Nat` where the
entry `0` means a free slot and a nonzero entry is the id of the task
occupying the slot, exactly as `load_computers` builds them
(`computer[gpu] = [0] * computer[gpu]`, then `gpu[i] = task.id`).
-/

namespace MLComp

/-- Task status enumeration (`mlcomp.db.enums.TaskStatus`).  The enum
module itself is outside the extracted sources; the constructors are the
ones named throughout `supervisor.py` and `task.py`. -/
inductive TaskStatus
  | NotRan
  | Queued
  | InProgress
  | Failed
  | Stopped
  | Skipped
  | Success
  deriving DecidableEq, Repr

/-- The `distr_info` dictionary stored in the `additional_info` of a task
(built in `SupervisorBuilder.process_task`). -/
structure DistrInfo where
  master_addr : String
  rank : Nat
  local_rank : Nat
  master_port : Nat
  world_size : Nat
  deriving DecidableEq, Repr

/-- A task row (`mlcomp.db.models.Task`), restricted to the fields the
scheduling tick reads or writes.  `dag_docker_img` stands for
`task.dag_rel.docker_img` and `has_dag_rel` for `task.dag_rel is not
None`; `distr_info` is the `distr_info` entry of `additional_info`.
Wall-clock bookkeeping fields (`started`, `finished`, `last_activity`)
are I/O timestamps outside the model. -/
structure Task where
  id : Nat
  name : String
  status : TaskStatus
  debug : Bool
  cpu : Int
  memory : Int
  gpu : Nat
  computer : Option String
  computer_assigned : Option String
  gpu_assigned : Option Nat
  parent : Option Nat
  dag_docker_img : Option String
  has_dag_rel : Bool
  distr_info : Option DistrInfo
  deriving DecidableEq, Repr

/-- A dependency edge (`mlcomp.db.models.TaskDependence`):
`task_id` depends on `depend_id`. -/
structure TaskDependence where
  task_id : Nat
  depend_id : Nat
  deriving DecidableEq, Repr

/-- Raw capacity record returned by `ComputerProvider.computers()`
before `load_computers` decorates it. -/
structure RawComputer where
  name : String
  ip : String
  cpu : Int
  memory : Int
  gpu : Nat
  deriving DecidableEq, Repr

/-- The per-computer dictionary that `load_computers` builds and the
rest of the tick mutates: available `cpu`/`memory`, the GPU slot vector,
the reserved rendezvous ports, and the retained totals. -/
structure Computer where
  name : String
  ip : String
  cpu : Int
  memory : Int
  gpu : List Nat
  ports : List Nat
  cpu_total : Int
  memory_total : Int
  gpu_total : Nat
  deriving DecidableEq, Repr

/-- `TaskProvider.by_status`: the store tasks whose status is among the
given statuses (query order preserved). -/
def by_status (tasks : List Task) (statuses : List TaskStatus) : List Task :=
  tasks.filter (fun t => statuses.contains t.status)

/-- `SupervisorBuilder.load_tasks`: the not-ran set of the tick, i.e. the
`NotRan` tasks with the `debug` ones filtered out
(`[task for task in not_ran_tasks if not task.debug]`). -/
def load_not_ran (tasks : List Task) : List Task :=
  (by_status tasks [TaskStatus.NotRan]).filter (fun t => !t.debug)

/-- `TaskProvider.change_status`.  The source also stamps `started` /
`finished` with the wall clock for some target statuses; those
timestamps are I/O effects outside the model, the status field is the
update the scheduler logic observes. -/
def change_status (task : Task) (status : TaskStatus) : Task :=
  { task with status := status }

/-- `TaskProvider.dependency_status`.  The source initialises
`res = {t.id: set() for t in tasks}` and then executes
`res[item.task_id].append(task.status)` for every joined dependence
row.  A Python `set` has no `append` method, so the first iteration of
that loop raises `AttributeError`; the function only returns normally
when the join produces no rows.  The dict of (intended) status sets is
modelled as an association list. -/
def dependency_status (tasks : List Task) (edges : List TaskDependence)
    (store : List Task) : Except String (List (Nat × List TaskStatus)) :=
  let res := tasks.map (fun t => (t.id, ([] : List TaskStatus)))
  let task_ids := tasks.map Task.id
  let items := (edges.filter (fun e => task_ids.contains e.task_id)).filterMap
    (fun e => (store.find? (fun t => t.id == e.depend_id)).map (fun t => (e, t)))
  match items with
  | [] => Except.ok res
  | _ :: _ => Except.error "AttributeError: set object has no attribute append"

/-- Membership-preserving insertion used to model `set.add` on the
per-computer reserved-port set in `load_computers`. -/
def insert_port (p : Nat) (ps : List Nat) : List Nat :=
  if ps.contains p then ps else p :: ps

/-- `load_computers`, initialisation part: decorate one raw capacity
record (`computer[gpu] = [0] * computer[gpu]`, empty port set,
retained totals). -/
def init_computer (r : RawComputer) : Computer :=
  { name := r.name
    ip := r.ip
    cpu := r.cpu
    memory := r.memory
    gpu := List.replicate r.gpu 0
    ports := []
    cpu_total := r.cpu
    memory_total := r.memory
    gpu_total := r.gpu }

/-- `load_computers`, accounting part, effect of one Queued/InProgress
task on one computer record: if the task is assigned to this computer,
subtract its cpu/memory request, mark its GPU slot, and reserve its
rendezvous port when it is a distributed rank-0 task. -/
def account_one (t : Task) (c : Computer) : Computer :=
  match t.computer_assigned with
  | none => c
  | some assigned =>
    if c.name = assigned then
      { c with
        cpu := c.cpu - t.cpu
        memory := c.memory - t.memory
        gpu := (match t.gpu_assigned with
                | some g => c.gpu.set g t.id
                | none => c.gpu)
        ports := (match t.distr_info with
                  | some di =>
                    if di.rank = 0 then insert_port di.master_port c.ports
                    else c.ports
                  | none => c.ports) }
    else c

/-- One iteration of the accounting loop of `load_computers` over the
whole computer dictionary (the Python loop mutates the one matching
dict entry; entries with other names are untouched). -/
def account_task (cs : List Computer) (t : Task) : List Computer :=
  cs.map (account_one t)

/-- `SupervisorBuilder.load_computers`: build the capacity
snapshot, then subtract the resources of every task currently Queued or
InProgress from its assigned computer. -/
def load_computers (raw : List RawComputer) (tasks : List Task) : List Computer :=
  (by_status tasks [TaskStatus.Queued, TaskStatus.InProgress]).foldl
    account_task (raw.map init_computer)

/-- In-memory supervisor state threaded through one tick: alive queues,
the mutable computer snapshot, the id the task store will give to the
next inserted row, and the docker port-range registry
(`DockerProvider.get(computer, docker_name).ports`, as a
`(low, high)` pair). -/
structure SupState where
  queues : List String
  computers : List Computer
  next_id : Nat
  dp : String → String → Nat × Nat

/-- Python `x or "default"` on the `docker_img` of the dag (both `None` and
the empty string fall back). -/
def pyOrDefault (img : Option String) : String :=
  match img with
  | none => "default"
  | some s => if s = "" then "default" else s

/-- Queue name `{computer}_{dag docker image or "default"}`. -/
def queue_of (c : Computer) (img : Option String) : String :=
  c.name ++ "_" ++ pyOrDefault img

/-- `task.computer is not None and task.computer != c[name]`. -/
def pinned_mismatch (task : Task) (c : Computer) : Bool :=
  match task.computer with
  | some n => n != c.name
  | none => false

/-- `valid_computer` inside `SupervisorBuilder.process_task`: `none`
means the computer is a candidate, `some msg` is the rejection reason
recorded in the diagnostic trace. -/
def valid_computer (queues : List String) (task : Task) (c : Computer) :
    Option String :=
  if pinned_mismatch task c then
    some "name set in the config!= name of this computer"
  else if task.cpu > c.cpu then
    some ("task cpu = " ++ toString task.cpu ++ " > computer free cpu = "
          ++ toString c.cpu)
  else if task.memory > c.memory then
    some ("task cpu = " ++ toString task.cpu ++ " > computer free memory = "
          ++ toString c.memory)
  else if !(queues.contains (queue_of c task.dag_docker_img)) then
    some ("required queue = " ++ queue_of c task.dag_docker_img
          ++ " not in queues")
  else if task.gpu > 0 && !(c.gpu.any (fun g => g == 0)) then
    some "task requires gpu, but there is not any free"
  else
    none

/-- `SupervisorBuilder.find_port`: scan the docker-declared port range
of the computer and return the first port not reserved on it; raise
when the whole range is taken. -/
def find_port (dp : String → String → Nat × Nat) (c : Computer)
    (docker_name : String) : Except String Nat :=
  let lo := (dp c.name docker_name).1
  let hi := (dp c.name docker_name).2
  match (List.range' lo (hi + 1 - lo)).find? (fun p => !(c.ports.contains p)) with
  | some p => Except.ok p
  | none => Except.error ("All ports in " ++ c.name ++ " are taken")

/-- `SupervisorBuilder.process_to_celery`, effect on the task row and
the computer dict: mark the task Queued on this computer and, only when
the task has a GPU assigned, occupy that GPU slot and subtract the
cpu/memory request of the task from the available pool of the computer. -/
def process_to_celery (task : Task) (queue : String) (c : Computer) :
    Task × Computer :=
  let t := { task with
             status := TaskStatus.Queued
             computer_assigned := some c.name }
  match t.gpu_assigned with
  | some g =>
    (t, { c with
          gpu := c.gpu.set g t.id
          cpu := c.cpu - t.cpu
          memory := c.memory - t.memory })
  | none => (t, c)

/-- `process_to_celery` acting on the supervisor state: the computer is
a live entry of `st.computers` (Python mutates the shared dict), so the
update is applied at every entry carrying the name of the dispatched
computer.  Also returns the updated task and the `(task id, queue)` pair
submitted to the work queue. -/
def celery_state (st : SupState) (task : Task) (queue : String)
    (cname : String) : SupState × Task × (Nat × String) :=
  let t := { task with
             status := TaskStatus.Queued
             computer_assigned := some cname }
  let cs := st.computers.map
    (fun c => if c.name = cname then (process_to_celery task queue c).2 else c)
  ({ st with computers := cs }, t, (t.id, queue))

/-- A collected placement tuple `[computer, queue, gpu-slot-index]`. -/
def TSend := Computer × String × Nat

instance : DecidableEq TSend := by
  unfold TSend
  infer_instance

/-- The inner GPU-collection loop of `process_task` over the slot vector of one computer.  `index` mirrors the Python counter exactly: the
`continue` on an occupied slot skips the `index += 1`, so the counter
advances only past free slots.  `room` is how many more tuples the task
still needs (the loop breaks as soon as the global count is reached). -/
def collect_from (gpus : List Nat) (index : Nat) (room : Nat) : List Nat :=
  match gpus, room with
  | _, 0 => []
  | [], _ + 1 => []
  | g :: rest, r + 1 =>
    if g ≠ 0 then collect_from rest index (r + 1)
    else index :: collect_from rest (index + 1) r

/-- The outer GPU-collection loop of `process_task`: walk the candidate
computers in order, taking tuples from each computer until the
requested count is reached. -/
def collect_to_send (img : Option String) (computers : List Computer)
    (need : Nat) : List TSend :=
  match computers with
  | [] => []
  | c :: rest =>
    let queue := queue_of c img
    let idxs := collect_from c.gpu 0 need
    let here : List TSend := idxs.map (fun i => (c, queue, i))
    if need ≤ here.length then here
    else here ++ collect_to_send img rest (need - here.length)

/-- `computer_gpu_taken[name]` after the collection loop: the slot
indices collected on the computer(s) called `name`, in collection
order. -/
def gpu_visible (ts : List TSend) (name : String) : List Nat :=
  (ts.filter (fun x => x.1.name == name)).map (fun x => x.2.2)

/-- Python `list.index` (the element is present at every call site). -/
def py_index (xs : List Nat) (x : Nat) : Nat :=
  match xs with
  | [] => 0
  | y :: ys => if y = x then 0 else py_index ys x + 1

/-- `SupervisorBuilder.create_service_task`: clone the parent task as a
NotRan service task with the derived GPU assignment and `distr_info`,
parented to the logical task.  `fresh_id` is the id the task store
assigns on `provider.add`. -/
def create_service_task (task : Task) (gpu_assigned : Option Nat)
    (distr_info : Option DistrInfo) (fresh_id : Nat) : Task :=
  { id := fresh_id
    name := task.name
    status := TaskStatus.NotRan
    debug := false
    cpu := 1
    memory := 0
    gpu := 0
    computer := task.computer
    computer_assigned := none
    gpu_assigned := gpu_assigned
    parent := some task.id
    dag_docker_img := task.dag_docker_img
    has_dag_rel := task.has_dag_rel
    distr_info := (match distr_info with
                   | some di => some di
                   | none => task.distr_info) }

/-- The rank-dispatch loop at the end of `process_task`: for each
collected tuple, in order, derive the `distr_info` payload (rank =
position, local rank = position of the slot index among the indices
claimed on the same computer, rendezvous address = `localhost` on the
rendezvous host and the host's IP elsewhere), create the service task,
and hand it to the work queue.  Returns the final state, the created
service tasks, and the dispatched `(task id, queue)` pairs. -/
def dispatch_ranks (parent : Task) (port : Nat) (all_ts : List TSend)
    (main : Computer) :
    SupState → List TSend → Nat → SupState × List Task × List (Nat × String)
  | st, [], _ => (st, [], [])
  | st, x :: rest, rank =>
    let ip := if x.1.name = main.name then "localhost" else main.ip
    let di : DistrInfo :=
      { master_addr := ip
        rank := rank
        local_rank := py_index (gpu_visible all_ts x.1.name) x.2.2
        master_port := port
        world_size := parent.gpu }
    let svc := create_service_task parent (some x.2.2) (some di) st.next_id
    let st1 : SupState := { st with next_id := st.next_id + 1 }
    let c1 := celery_state st1 svc x.2.1 x.1.name
    let r := dispatch_ranks parent port all_ts main c1.1 rest (rank + 1)
    (r.1, c1.2.1 :: r.2.1, c1.2.2 :: r.2.2)

/-- Number of free slots in the GPU vector of one computer
(`sum(g == 0 for g in c[gpu])`). -/
def free_count (c : Computer) : Nat :=
  c.gpu.countP (fun g => g == 0)

/-- `free_gpu` in `process_task`: total free GPU slots over a list of
(candidate) computers. -/
def total_free (cs : List Computer) : Nat :=
  (cs.map free_count).sum

/-- The candidate computers of a task: those `valid_computer` accepts. -/
def candidates (st : SupState) (task : Task) : List Computer :=
  st.computers.filter (fun c => (valid_computer st.queues task c).isNone)

/-- The `to_send` list `process_task` collects for a GPU task. -/
def collected (st : SupState) (task : Task) : List TSend :=
  collect_to_send task.dag_docker_img (candidates st task) task.gpu

/-- The rendezvous-port allocation of `process_task`:
`find_port(to_send[0][0], to_send[0][1].split(..)[1])`. -/
def rendezvous_port (st : SupState) (task : Task) : Except String Nat :=
  match collected st task with
  | [] => Except.error "no placement tuples collected"
  | first :: _ =>
    find_port st.dp first.1 (((first.2.1).splitOn "_").getD 1 "")

/-- Result of `process_task` on one runnable task: the updated state,
the (possibly updated) logical task, the created service tasks, and the
dispatched `(task id, queue)` pairs. -/
structure ProcOut where
  state : SupState
  task : Task
  created : List Task
  dispatched : List (Nat × String)

/-- `SupervisorBuilder.process_task`.  A raised `find_port` exception
becomes `Except.error` (it aborts the tick before any rank of the task
is created or dispatched). -/
def process_task (st : SupState) (task : Task) : Except String ProcOut :=
  if task.gpu > total_free (candidates st task) then
    Except.ok ⟨st, task, [], []⟩
  else if task.gpu > 0 then
    match collected st task with
    | [] => Except.ok ⟨st, task, [], []⟩
    | first :: rest =>
      match rendezvous_port st task with
      | Except.error e => Except.error e
      | Except.ok port =>
        let r := dispatch_ranks task port (first :: rest) first.1 st
          (first :: rest) 0
        Except.ok ⟨r.1, { task with status := TaskStatus.Queued }, r.2.1, r.2.2⟩
  else
    match candidates st task with
    | [] => Except.ok ⟨st, task, [], []⟩
    | c :: _ =>
      let c1 := celery_state st task (queue_of c task.dag_docker_img) c.name
      Except.ok ⟨c1.1, c1.2.1, [], [c1.2.2]⟩

/-- One iteration of the `process_tasks` loop: skip tasks without a
dag, transition tasks with a Stopped or Failed dependency to Skipped,
leave blocked tasks alone, and place the rest. -/
def process_tasks_step (dep : Nat → List TaskStatus) (st : SupState)
    (task : Task) :
    Except String (SupState × Task × List Task × List (Nat × String)) :=
  if task.has_dag_rel = false then
    Except.ok (st, task, [], [])
  else if (dep task.id).contains TaskStatus.Stopped
          || (dep task.id).contains TaskStatus.Failed then
    Except.ok (st, change_status task TaskStatus.Skipped, [], [])
  else if dep task.id ≠ [] ∧
          ¬ ((dep task.id).all (fun s => s == TaskStatus.Success) = true) then
    Except.ok (st, task, [], [])
  else
    match process_task st task with
    | Except.error e => Except.error e
    | Except.ok r => Except.ok (r.state, r.task, r.created, r.dispatched)

/-- Accumulated outcome of `SupervisorBuilder.process_tasks`. -/
structure TasksOut where
  state : SupState
  tasks : List Task
  created : List Task
  dispatched : List (Nat × String)

/-- `SupervisorBuilder.process_tasks`: run the dependency gate and the
placement engine over the not-ran set of the tick, in order. -/
def process_tasks (dep : Nat → List TaskStatus) (st : SupState) :
    List Task → Except String TasksOut
  | [] => Except.ok ⟨st, [], [], []⟩
  | t :: rest =>
    match process_tasks_step dep st t with
    | Except.error e => Except.error e
    | Except.ok (st1, t1, cr, ds) =>
      match process_tasks dep st1 rest with
      | Except.error e => Except.error e
      | Except.ok out =>
        Except.ok ⟨out.state, t1 :: out.tasks, cr ++ out.created,
                   ds ++ out.dispatched⟩

/-- Child status counts as produced by `TaskProvider.parent_tasks_stats`
(one filtered count per enum member). -/
def status_counts (children : List Task) (s : TaskStatus) : Nat :=
  (children.filter (fun c => c.status == s)).length

/-- The status recomputation chain of
`SupervisorBuilder.process_parent_tasks` (first match wins; when no
child has any of the five listed statuses the stored status stands). -/
def recompute_parent_status (current : TaskStatus) (counts : TaskStatus → Nat) :
    TaskStatus :=
  if counts TaskStatus.Failed > 0 then TaskStatus.Failed
  else if counts TaskStatus.Skipped > 0 then TaskStatus.Skipped
  else if counts TaskStatus.Queued > 0 then TaskStatus.Queued
  else if counts TaskStatus.InProgress > 0 then TaskStatus.InProgress
  else if counts TaskStatus.Success > 0 then TaskStatus.Success
  else current

/-- The created service tasks of a `process_task` outcome. -/
def createdOf : Except String ProcOut → List Task
  | Except.ok o => o.created
  | Except.error _ => []

/-- The status of the logical task after a successful `process_task`. -/
def parentStatusOf : Except String ProcOut → Option TaskStatus
  | Except.ok o => some o.task.status
  | Except.error _ => none

/-- Rank carried by the `distr_info` of a service task. -/
def rankOf (t : Task) : Nat :=
  match t.distr_info with
  | some di => di.rank
  | none => 0

/-- Rendezvous port carried by the `distr_info` of a service task. -/
def portOf (t : Task) : Option Nat :=
  t.distr_info.map DistrInfo.master_port

/-- World size carried by the `distr_info` of a service task. -/
def worldOf (t : Task) : Option Nat :=
  t.distr_info.map DistrInfo.world_size

/-- `find_port` on the computer registered in a state under a name. -/
def find_port_by_name (st : SupState) (name docker_name : String) :
    Option (Except String Nat) :=
  (st.computers.find? (fun c => c.name == name)).map
    (fun c => find_port st.dp c docker_name)

/-! ## Concrete fixtures used by the counterexamples and witnesses -/

/-- A NotRan task with one dependency (on task 2). -/
def c1_task : Task :=
  ⟨1, "a", TaskStatus.NotRan, false, 1, 1, 0, none, none, none, none, none,
   true, none⟩

/-- The upstream task 2, already succeeded. -/
def c1_upstream : Task :=
  ⟨2, "b", TaskStatus.Success, false, 1, 1, 0, none, none, none, none, none,
   true, none⟩

/-- The dependence edge: task 1 depends on task 2. -/
def c1_edge : TaskDependence := ⟨1, 2⟩

/-- A computer with 8 cpu and 16 memory available and two free GPU
slots. -/
def c4_comp : Computer := ⟨"comp1", "192.168.0.5", 8, 16, [0, 0], [], 8, 16, 2⟩

/-- A cpu-only task requesting cpu=2, mem=4, gpu=0 (no GPU assigned). -/
def c4_task : Task :=
  ⟨1, "t", TaskStatus.NotRan, false, 2, 4, 0, none, none, none, none, none,
   true, none⟩

/-- A task with GPU slot 0 assigned. -/
def c4g_task : Task :=
  ⟨3, "t", TaskStatus.NotRan, false, 2, 4, 1, none, none, some 0, none, none,
   true, none⟩

/-- A computer whose GPU slot 0 is occupied (by task 7) and whose slot 1
is free. -/
def c5_comp : Computer := ⟨"comp1", "192.168.0.5", 8, 16, [7, 0], [], 8, 16, 2⟩

/-- A child task with a given status (used to feed the status
aggregator counts). -/
def child_with (s : TaskStatus) : Task :=
  ⟨0, "child", s, false, 1, 1, 0, none, none, none, some 1, none, true, none⟩

/-! ## Claim theorems -/

/-- C1: the dependency-status computation is claimed to return, without
failing, a mapping from each task id to the set of statuses of its
dependencies (empty set when there are none).  The code initialises the
values of the mapping as Python sets and then calls `.append` on them, so it
raises `AttributeError` as soon as any listed task has a dependency; it
only returns (with the claimed empty sets) when no dependence row
matches. -/
theorem dependency_status_crashes_with_dependency :
    dependency_status [c1_task] [c1_edge] [c1_task, c1_upstream] =
      Except.error "AttributeError: set object has no attribute append" ∧
    dependency_status [c1_task] [] [c1_task] = Except.ok [(1, [])] :=
  ⟨rfl, rfl⟩

/-- C4 counterexample: dispatching the cpu=2, mem=4, gpu=0 task on a
computer with available cpu=8 leaves the in-memory available cpu at 8,
not at the claimed 6 — `process_to_celery` only decrements capacity
when the task has a GPU assigned. -/
theorem cpu_only_dispatch_keeps_capacity :
    ((process_to_celery c4_task "comp1_default" c4_comp).2).cpu = 8 ∧
    c4_comp.cpu - c4_task.cpu = 6 ∧
    ((process_to_celery c4_task "comp1_default" c4_comp).2).cpu ≠ 6 := by
  decide

/-- C4 amended: the immediate in-memory capacity decrement happens
exactly for tasks with a GPU assignment: with `gpu_assigned = some g`
the available cpu/memory of the chosen computer drop by the request
(and the task is marked Queued on that computer), while with
`gpu_assigned = none` the computer record is unchanged. -/
theorem gpu_dispatch_decrements_capacity (task : Task) (queue : String)
    (c : Computer) :
    (∀ g, task.gpu_assigned = some g →
      ((process_to_celery task queue c).2).cpu = c.cpu - task.cpu ∧
      ((process_to_celery task queue c).2).memory = c.memory - task.memory ∧
      ((process_to_celery task queue c).1).status = TaskStatus.Queued ∧
      ((process_to_celery task queue c).1).computer_assigned = some c.name) ∧
    (task.gpu_assigned = none → (process_to_celery task queue c).2 = c) := by
  constructor
  · intro g hg
    simp [process_to_celery, hg]
  · intro hg
    simp [process_to_celery, hg]

/-- Witness for `gpu_dispatch_decrements_capacity` at concrete inputs
covering both branches. -/
theorem gpu_dispatch_decrements_capacity_witness :
    ((process_to_celery c4g_task "comp1_default" c4_comp).2).cpu =
      c4_comp.cpu - c4g_task.cpu ∧
    (process_to_celery c4_task "comp1_default" c4_comp).2 = c4_comp :=
  ⟨((gpu_dispatch_decrements_capacity c4g_task "comp1_default" c4_comp).1
      0 rfl).1,
   (gpu_dispatch_decrements_capacity c4_task "comp1_default" c4_comp).2 rfl⟩

/-- C5: when a single candidate computer has slot 0 occupied (by task
7) and slot 1 free, collecting one GPU for a task produces the tuple
with slot index 0 — an index that is occupied, not free.  The
collection loop only advances its `index` counter past free slots (the
`continue` on an occupied slot skips `index += 1`), so the recorded
index is the count of free slots seen so far rather than the actual
slot position. -/
theorem collect_reports_occupied_slot :
    collect_to_send none [c5_comp] 1 = [(c5_comp, "comp1_default", 0)] ∧
    c5_comp.gpu.getD 0 99 = 7 ∧ (7 : Nat) ≠ 0 ∧
    c5_comp.gpu.getD 1 99 = 0 := by
  decide

/-- C6: the parent-status recomputation follows the strict precedence
Failed, then Skipped, then Queued, then InProgress, then Success, for
every parent currently Queued or InProgress; in particular children
{Success, InProgress} yield InProgress, {Success, Failed} yield Failed,
and {Success} alone yields Success. -/
theorem parent_status_precedence (cur : TaskStatus) (counts : TaskStatus → Nat)
    (hcur : cur = TaskStatus.Queued ∨ cur = TaskStatus.InProgress) :
    (0 < counts TaskStatus.Failed →
      recompute_parent_status cur counts = TaskStatus.Failed) ∧
    (counts TaskStatus.Failed = 0 → 0 < counts TaskStatus.Skipped →
      recompute_parent_status cur counts = TaskStatus.Skipped) ∧
    (counts TaskStatus.Failed = 0 → counts TaskStatus.Skipped = 0 →
     0 < counts TaskStatus.Queued →
      recompute_parent_status cur counts = TaskStatus.Queued) ∧
    (counts TaskStatus.Failed = 0 → counts TaskStatus.Skipped = 0 →
     counts TaskStatus.Queued = 0 → 0 < counts TaskStatus.InProgress →
      recompute_parent_status cur counts = TaskStatus.InProgress) ∧
    (counts TaskStatus.Failed = 0 → counts TaskStatus.Skipped = 0 →
     counts TaskStatus.Queued = 0 → counts TaskStatus.InProgress = 0 →
     0 < counts TaskStatus.Success →
      recompute_parent_status cur counts = TaskStatus.Success) ∧
    recompute_parent_status TaskStatus.Queued
      (status_counts [child_with TaskStatus.Success,
                      child_with TaskStatus.InProgress]) =
      TaskStatus.InProgress ∧
    recompute_parent_status TaskStatus.Queued
      (status_counts [child_with TaskStatus.Success,
                      child_with TaskStatus.Failed]) = TaskStatus.Failed ∧
    recompute_parent_status TaskStatus.InProgress
      (status_counts [child_with TaskStatus.Success]) = TaskStatus.Success := by
  refine ⟨?_, ?_, ?_, ?_, ?_, by decide, by decide, by decide⟩
  · intro h
    simp [recompute_parent_status, h]
  · intro hF h
    simp [recompute_parent_status, hF, h]
  · intro hF hSk h
    simp [recompute_parent_status, hF, hSk, h]
  · intro hF hSk hQ h
    simp [recompute_parent_status, hF, hSk, hQ, h]
  · intro hF hSk hQ hIP h
    simp [recompute_parent_status, hF, hSk, hQ, hIP, h]

/-- Witness for `parent_status_precedence` at a concrete child
multiset. -/
theorem parent_status_precedence_witness :
    recompute_parent_status TaskStatus.Queued
      (status_counts [child_with TaskStatus.Failed]) = TaskStatus.Failed :=
  (parent_status_precedence TaskStatus.Queued
      (status_counts [child_with TaskStatus.Failed]) (Or.inl rfl)).1 (by decide)

/-! ## C2: the dependency gate -/

/-- A minimal supervisor state (no queues, no computers). -/
def st0 : SupState := ⟨[], [], 1, fun _ _ => (0, 0)⟩

/-- A NotRan task with a dag. -/
def c2_task : Task :=
  ⟨1, "t", TaskStatus.NotRan, false, 1, 1, 0, none, none, none, none, none,
   true, none⟩

/-- Dependency statuses: the single dependency is Skipped. -/
def c2_dep : Nat → List TaskStatus := fun _ => [TaskStatus.Skipped]

/-- Dependency statuses: the single dependency is Failed. -/
def c2f_dep : Nat → List TaskStatus := fun _ => [TaskStatus.Failed]

/-- C2 counterexample: a NotRan task whose only dependency is Skipped —
a non-Success terminal status — is NOT transitioned to Skipped by the
gate: the Stopped-or-Failed test does not cover Skipped, so the task
falls into the blocked branch and stays NotRan (it is still never
dispatched). -/
theorem skipped_dependency_leaves_task_not_ran :
    process_tasks_step c2_dep st0 c2_task =
      Except.ok (st0, c2_task, [], []) ∧
    c2_task.status = TaskStatus.NotRan ∧
    TaskStatus.NotRan ≠ TaskStatus.Skipped :=
  ⟨rfl, rfl, by decide⟩

/-- C2 amended: a NotRan task with a dag whose dependency statuses
include Stopped or Failed is transitioned to Skipped and nothing is
dispatched for it; a task whose dependencies include Skipped (but
neither Stopped nor Failed) is left NotRan — blocked — and is likewise
never dispatched. -/
theorem dependency_gate_classification (dep : Nat → List TaskStatus)
    (st : SupState) (task : Task) (hdag : task.has_dag_rel = true) :
    (((dep task.id).contains TaskStatus.Stopped = true ∨
      (dep task.id).contains TaskStatus.Failed = true) →
      process_tasks_step dep st task =
        Except.ok (st, change_status task TaskStatus.Skipped, [], []) ∧
      (change_status task TaskStatus.Skipped).status = TaskStatus.Skipped) ∧
    ((dep task.id).contains TaskStatus.Stopped = false →
     (dep task.id).contains TaskStatus.Failed = false →
     (dep task.id).contains TaskStatus.Skipped = true →
      process_tasks_step dep st task = Except.ok (st, task, [], [])) := by
  constructor
  · intro hdep
    have hcond : ((dep task.id).contains TaskStatus.Stopped
        || (dep task.id).contains TaskStatus.Failed) = true := by
      rcases hdep with h | h
      · have hm : TaskStatus.Stopped ∈ dep task.id := by simpa using h
        simp [hm]
      · have hm : TaskStatus.Failed ∈ dep task.id := by simpa using h
        simp [hm]
    refine ⟨?_, rfl⟩
    unfold process_tasks_step
    rw [if_neg (by simp [hdag]), if_pos hcond]
  · intro hS hF hSk
    have hmem : TaskStatus.Skipped ∈ dep task.id := by simpa using hSk
    have hne : dep task.id ≠ [] := List.ne_nil_of_mem hmem
    have hall : ¬ ((dep task.id).all
        (fun s => s == TaskStatus.Success) = true) := by
      intro hall
      have := (List.all_eq_true.mp hall) TaskStatus.Skipped hmem
      simp at this
    have hcond : ¬ (((dep task.id).contains TaskStatus.Stopped
        || (dep task.id).contains TaskStatus.Failed) = true) := by
      have hS' : TaskStatus.Stopped ∉ dep task.id := by simpa using hS
      have hF' : TaskStatus.Failed ∉ dep task.id := by simpa using hF
      simp [hS', hF']
    unfold process_tasks_step
    rw [if_neg (by simp [hdag]), if_neg hcond, if_pos ⟨hne, hall⟩]

/-- Witness for `dependency_gate_classification`: a Failed dependency
sends the concrete task to Skipped with nothing dispatched. -/
theorem dependency_gate_classification_witness :
    process_tasks_step c2f_dep st0 c2_task =
      Except.ok (st0, change_status c2_task TaskStatus.Skipped, [], []) :=
  ((dependency_gate_classification c2f_dep st0 c2_task rfl).1
    (Or.inr (by decide))).1

/-! ## C7: capacity accounting -/

/-- Queued/InProgress tasks assigned to a given computer name. -/
def assigned_to (name : String) (tasks : List Task) : List Task :=
  (by_status tasks [TaskStatus.Queued, TaskStatus.InProgress]).filter
    (fun t => t.computer_assigned == some name)

/-- Total cpu request of the Queued/InProgress tasks assigned to a
computer. -/
def assigned_cpu_sum (name : String) (tasks : List Task) : Int :=
  ((assigned_to name tasks).map Task.cpu).sum

/-- Total memory request of the Queued/InProgress tasks assigned to a
computer. -/
def assigned_memory_sum (name : String) (tasks : List Task) : Int :=
  ((assigned_to name tasks).map Task.memory).sum

theorem account_one_name (t : Task) (c : Computer) :
    (account_one t c).name = c.name := by
  cases ht : t.computer_assigned with
  | none => simp [account_one, ht]
  | some a =>
    simp only [account_one, ht]
    split <;> rfl

theorem account_one_cpu (t : Task) (c : Computer) :
    (account_one t c).cpu =
      c.cpu - (if t.computer_assigned = some c.name then t.cpu else 0) := by
  cases ht : t.computer_assigned with
  | none => simp [account_one, ht]
  | some a =>
    by_cases hc : c.name = a
    · simp [account_one, ht, hc]
    · have hne : ¬ (some a = some c.name) :=
        fun h => hc (Option.some.inj h).symm
      simp [account_one, ht, hc, hne]

theorem account_one_memory (t : Task) (c : Computer) :
    (account_one t c).memory =
      c.memory - (if t.computer_assigned = some c.name then t.memory else 0) := by
  cases ht : t.computer_assigned with
  | none => simp [account_one, ht]
  | some a =>
    by_cases hc : c.name = a
    · simp [account_one, ht, hc]
    · have hne : ¬ (some a = some c.name) :=
        fun h => hc (Option.some.inj h).symm
      simp [account_one, ht, hc, hne]

/-- The accounting fold over the computer dictionary commutes to a
per-computer fold (each loop iteration only touches the entry matching
the assigned name of the task). -/
theorem foldl_account_task (ts : List Task) :
    ∀ cs : List Computer,
      ts.foldl account_task cs =
        cs.map (fun c => ts.foldl (fun c t => account_one t c) c) := by
  induction ts with
  | nil =>
    intro cs
    simp
  | cons t ts ih =>
    intro cs
    simp only [List.foldl_cons, account_task]
    rw [ih, List.map_map]
    rfl

theorem foldl_account_name (ts : List Task) :
    ∀ c : Computer,
      (ts.foldl (fun c t => account_one t c) c).name = c.name := by
  induction ts with
  | nil => intro c; rfl
  | cons t ts ih =>
    intro c
    simp only [List.foldl_cons]
    rw [ih (account_one t c), account_one_name]

theorem foldl_account_cpu (ts : List Task) :
    ∀ c : Computer,
      (ts.foldl (fun c t => account_one t c) c).cpu =
        c.cpu - ((ts.filter
          (fun u => u.computer_assigned == some c.name)).map Task.cpu).sum := by
  induction ts with
  | nil => intro c; simp
  | cons t ts ih =>
    intro c
    simp only [List.foldl_cons]
    rw [ih (account_one t c), account_one_name, account_one_cpu]
    by_cases hp : t.computer_assigned = some c.name
    · simp only [List.filter_cons, hp]
      simp
      omega
    · have hp' : (t.computer_assigned == some c.name) = false := by
        simp [hp]
      simp only [List.filter_cons, hp']
      simp [hp]

theorem foldl_account_memory (ts : List Task) :
    ∀ c : Computer,
      (ts.foldl (fun c t => account_one t c) c).memory =
        c.memory - ((ts.filter
          (fun u => u.computer_assigned == some c.name)).map Task.memory).sum := by
  induction ts with
  | nil => intro c; simp
  | cons t ts ih =>
    intro c
    simp only [List.foldl_cons]
    rw [ih (account_one t c), account_one_name, account_one_memory]
    by_cases hp : t.computer_assigned = some c.name
    · simp only [List.filter_cons, hp]
      simp
      omega
    · have hp' : (t.computer_assigned == some c.name) = false := by
        simp [hp]
      simp only [List.filter_cons, hp']
      simp [hp]

/-- C7 amended: after capacity accounting, every available
cpu/memory equals its total minus the summed requests of the
Queued/InProgress tasks assigned to it; the result is non-negative
whenever those sums fit in the totals, but nothing clamps it, so it can
go negative when the persisted assignments oversubscribe a computer. -/
theorem capacity_accounting (raw : List RawComputer) (tasks : List Task) :
    ∀ c ∈ load_computers raw tasks, ∃ r ∈ raw,
      c.name = r.name ∧
      c.cpu = r.cpu - assigned_cpu_sum r.name tasks ∧
      c.memory = r.memory - assigned_memory_sum r.name tasks ∧
      (assigned_cpu_sum r.name tasks ≤ r.cpu → 0 ≤ c.cpu) ∧
      (assigned_memory_sum r.name tasks ≤ r.memory → 0 ≤ c.memory) := by
  intro c hc
  unfold load_computers at hc
  rw [foldl_account_task, List.map_map] at hc
  obtain ⟨r, hr, hcr⟩ := List.mem_map.mp hc
  have hname : c.name = r.name := by
    rw [← hcr]
    simp only [Function.comp]
    rw [foldl_account_name]
    rfl
  have hcpu : c.cpu = r.cpu - assigned_cpu_sum r.name tasks := by
    rw [← hcr]
    simp only [Function.comp]
    rw [foldl_account_cpu]
    rfl
  have hmem : c.memory = r.memory - assigned_memory_sum r.name tasks := by
    rw [← hcr]
    simp only [Function.comp]
    rw [foldl_account_memory]
    rfl
  exact ⟨r, hr, hname, hcpu, hmem, fun h => by omega, fun h => by omega⟩

/-- A raw computer with total cpu 8 and no GPUs. -/
def c7_raw : RawComputer := ⟨"comp1", "192.168.0.5", 8, 16, 0⟩

/-- A Queued task assigned to comp1 requesting more cpu (10) than the
total of the computer (8). -/
def c7_big_task : Task :=
  ⟨1, "t", TaskStatus.Queued, false, 10, 1, 0, none, some "comp1", none, none,
   none, true, none⟩

/-- C7 counterexample: with a Queued task whose request exceeds the
total of the computer, the accounted available cpu is −2 — the claimed
"never negative" guarantee fails (nothing in `load_computers` clamps
the subtraction). -/
theorem capacity_goes_negative :
    (load_computers [c7_raw] [c7_big_task]).map Computer.cpu = [(-2 : Int)] ∧
    (-2 : Int) < 0 := by
  decide

/-- Witness for `capacity_accounting` on a concrete one-computer
snapshot with no running tasks. -/
theorem capacity_accounting_witness :
    ∃ r ∈ [c7_raw],
      (init_computer c7_raw).name = r.name ∧
      (init_computer c7_raw).cpu = r.cpu - assigned_cpu_sum r.name [] ∧
      (init_computer c7_raw).memory = r.memory - assigned_memory_sum r.name [] ∧
      (assigned_cpu_sum r.name [] ≤ r.cpu → 0 ≤ (init_computer c7_raw).cpu) ∧
      (assigned_memory_sum r.name [] ≤ r.memory →
        0 ≤ (init_computer c7_raw).memory) :=
  capacity_accounting [c7_raw] [] (init_computer c7_raw) (by decide)

/-! ## Placement-engine lemmas (collection, dispatch, frame) -/

theorem forall₂_exists_left {α β : Type} (R : α → β → Prop) :
    ∀ l₁ l₂, List.Forall₂ R l₁ l₂ → ∀ b ∈ l₂, ∃ a ∈ l₁, R a b := by
  intro l₁ l₂ h
  induction h with
  | nil =>
    intro b hb
    cases hb
  | cons hR _ ih =>
    intro b hb
    rcases List.mem_cons.mp hb with hb | hb
    · exact ⟨_, List.mem_cons_self _ _, hb ▸ hR⟩
    · obtain ⟨a, ha, hRa⟩ := ih b hb
      exact ⟨a, List.mem_cons_of_mem _ ha, hRa⟩

theorem process_to_celery_name_ports (task : Task) (queue : String)
    (c : Computer) :
    ((process_to_celery task queue c).2).name = c.name ∧
    ((process_to_celery task queue c).2).ports = c.ports := by
  unfold process_to_celery
  cases task.gpu_assigned <;> exact ⟨rfl, rfl⟩

/-- Dispatching through `process_to_celery` never touches any
name or reserved-port set of any computer. -/
theorem celery_state_frame (st : SupState) (task : Task)
    (queue cname : String) :
    ((celery_state st task queue cname).1.computers).map
        (fun c => (c.name, c.ports)) =
      st.computers.map (fun c => (c.name, c.ports)) ∧
    (celery_state st task queue cname).1.queues = st.queues ∧
    (celery_state st task queue cname).1.next_id = st.next_id ∧
    (celery_state st task queue cname).1.dp = st.dp := by
  refine ⟨?_, rfl, rfl, rfl⟩
  show (st.computers.map _).map _ = _
  rw [List.map_map]
  apply List.map_congr_left
  intro c _
  simp only [Function.comp_apply]
  by_cases h : c.name = cname
  · rw [if_pos h]
    obtain ⟨h1, h2⟩ := process_to_celery_name_ports task queue c
    rw [h1, h2]
  · rw [if_neg h]

/-- The rank-dispatch loop preserves the name and port
set, the alive-queue list and the port registry, and never decreases
the fresh-id counter. -/
theorem dispatch_ranks_frame (parent : Task) (port : Nat)
    (all_ts : List TSend) (main : Computer) :
    ∀ ts st rank,
      ((dispatch_ranks parent port all_ts main st ts rank).1.computers).map
          (fun c => (c.name, c.ports)) =
        st.computers.map (fun c => (c.name, c.ports)) ∧
      (dispatch_ranks parent port all_ts main st ts rank).1.queues =
        st.queues ∧
      (dispatch_ranks parent port all_ts main st ts rank).1.dp = st.dp ∧
      st.next_id ≤
        (dispatch_ranks parent port all_ts main st ts rank).1.next_id := by
  intro ts
  induction ts with
  | nil =>
    intro st rank
    exact ⟨rfl, rfl, rfl, Nat.le_refl _⟩
  | cons x rest ih =>
    intro st rank
    simp only [dispatch_ranks]
    refine ⟨?_, ?_, ?_, ?_⟩
    · exact ((ih _ _).1).trans (celery_state_frame _ _ _ _).1
    · exact ((ih _ _).2.1).trans (celery_state_frame _ _ _ _).2.1
    · exact ((ih _ _).2.2.1).trans (celery_state_frame _ _ _ _).2.2.2
    · have hi := (ih ((celery_state { st with next_id := st.next_id + 1 }
        (create_service_task parent (some x.2.2)
          (some ⟨(if x.1.name = main.name then "localhost" else main.ip),
                 rank, py_index (gpu_visible all_ts x.1.name) x.2.2, port,
                 parent.gpu⟩)
          st.next_id) x.2.1 x.1.name).1) (rank + 1)).2.2.2
      exact Nat.le_trans (Nat.le_succ _) hi

/-- Shape of the service tasks created by the rank-dispatch loop, tuple
by tuple. -/
theorem dispatch_ranks_created (parent : Task) (port : Nat)
    (all_ts : List TSend) (main : Computer) :
    ∀ ts st rank,
      List.Forall₂ (fun (x : TSend) (t : Task) =>
          t.computer_assigned = some x.1.name ∧
          t.parent = some parent.id ∧
          t.gpu_assigned = some x.2.2 ∧
          t.status = TaskStatus.Queued ∧
          ∃ di, t.distr_info = some di ∧
            di.master_port = port ∧
            di.world_size = parent.gpu ∧
            di.master_addr =
              (if x.1.name = main.name then "localhost" else main.ip))
        ts (dispatch_ranks parent port all_ts main st ts rank).2.1 := by
  intro ts
  induction ts with
  | nil =>
    intro st rank
    exact List.Forall₂.nil
  | cons x rest ih =>
    intro st rank
    simp only [dispatch_ranks]
    exact List.Forall₂.cons
      ⟨rfl, rfl, rfl, rfl, _, rfl, rfl, rfl, rfl⟩ (ih _ _)

/-- The created service tasks carry consecutive ranks starting at the
initial counter of the loop. -/
theorem dispatch_ranks_rank (parent : Task) (port : Nat)
    (all_ts : List TSend) (main : Computer) :
    ∀ ts st rank,
      ((dispatch_ranks parent port all_ts main st ts rank).2.1).map rankOf =
        List.range' rank ts.length := by
  intro ts
  induction ts with
  | nil =>
    intro st rank
    rfl
  | cons x rest ih =>
    intro st rank
    simp only [dispatch_ranks, List.map_cons, List.length_cons,
      List.range'_succ]
    exact congrArg (rank :: ·) (ih _ _)

/-- Every `(task id, queue)` pair dispatched by the rank loop carries a
freshly created id. -/
theorem dispatch_ranks_ids (parent : Task) (port : Nat)
    (all_ts : List TSend) (main : Computer) :
    ∀ ts st rank,
      ∀ d ∈ (dispatch_ranks parent port all_ts main st ts rank).2.2,
        st.next_id ≤ d.1 := by
  intro ts
  induction ts with
  | nil =>
    intro st rank d hd
    cases hd
  | cons x rest ih =>
    intro st rank d hd
    simp only [dispatch_ranks] at hd
    rcases List.mem_cons.mp hd with hd | hd
    · rw [hd]
      exact Nat.le_refl _
    · exact Nat.le_trans (Nat.le_succ _) (ih _ _ d hd)

theorem collect_from_length (gpus : List Nat) :
    ∀ index room,
      (collect_from gpus index room).length =
        min room (gpus.countP (fun g => g == 0)) := by
  induction gpus with
  | nil =>
    intro index room
    cases room <;> simp [collect_from]
  | cons g rest ih =>
    intro index room
    cases room with
    | zero => simp [collect_from]
    | succ r =>
      by_cases hg : g = 0
      · simp only [collect_from]
        rw [if_neg (by simp [hg])]
        simp only [List.length_cons, ih, List.countP_cons, hg]
        simp
        omega
      · simp only [collect_from]
        rw [if_pos hg]
        simp only [ih, List.countP_cons]
        have : ((g == 0) : Bool) = false := by simp [hg]
        rw [this]
        simp

theorem collect_to_send_length (img : Option String) :
    ∀ (computers : List Computer) (need : Nat),
      (collect_to_send img computers need).length =
        min need (total_free computers) := by
  intro computers
  induction computers with
  | nil =>
    intro need
    simp [collect_to_send, total_free]
  | cons c rest ih =>
    intro need
    simp only [collect_to_send]
    have hlen : ((collect_from c.gpu 0 need).map
        (fun i => ((c, queue_of c img, i) : TSend))).length =
        min need (free_count c) := by
      rw [List.length_map, collect_from_length]
      rfl
    by_cases hb : need ≤ ((collect_from c.gpu 0 need).map
        (fun i => ((c, queue_of c img, i) : TSend))).length
    · rw [if_pos hb, hlen]
      rw [hlen] at hb
      simp only [total_free, List.map_cons, List.sum_cons]
      have : total_free rest = (rest.map free_count).sum := rfl
      omega
    · rw [if_neg hb, List.length_append, hlen, ih]
      rw [hlen] at hb
      simp only [total_free, List.map_cons, List.sum_cons]
      have : total_free rest = (rest.map free_count).sum := rfl
      omega

/-! ## C3 and C8: multi-GPU placement -/

/-- Together with `collect_to_send_length`: the collected list has
exactly `task.gpu` tuples when exactly that many slots are free. -/
theorem collected_length_of_exact (st : SupState) (task : Task)
    (hfree : total_free (candidates st task) = task.gpu) :
    (collected st task).length = task.gpu := by
  unfold collected
  rw [collect_to_send_length, hfree]
  omega

/-- Evaluation of `process_task` in the successful multi-GPU branch. -/
theorem process_task_gpu_eval (st : SupState) (task : Task)
    (first : TSend) (rest : List TSend) (p : Nat)
    (hfree : ¬ task.gpu > total_free (candidates st task))
    (hg : 0 < task.gpu)
    (hcol : collected st task = first :: rest)
    (hport : rendezvous_port st task = Except.ok p) :
    process_task st task = Except.ok
      ⟨(dispatch_ranks task p (first :: rest) first.1 st (first :: rest) 0).1,
       { task with status := TaskStatus.Queued },
       (dispatch_ranks task p (first :: rest) first.1 st (first :: rest) 0).2.1,
       (dispatch_ranks task p (first :: rest) first.1 st (first :: rest) 0).2.2⟩ := by
  unfold process_task
  rw [if_neg hfree, if_pos hg, hcol, hport]

/-- C3: for a task requesting `g ≥ 1` GPUs, when exactly `g` free GPU
slots exist across the candidate computers (and the rendezvous-port
scan succeeds with port `p`), placement creates exactly `g` service
tasks with ranks `0..g-1`, all carrying the same rendezvous port `p`
and `world_size = g`, and the parent transitions to Queued; when fewer
than `g` slots are free cluster-wide, the state is untouched, zero
service tasks are created and the parent task is returned unchanged
(it remains NotRan). -/
theorem multi_gpu_placement_exact (st : SupState) (task : Task)
    (hg : 1 ≤ task.gpu) :
    (total_free (candidates st task) = task.gpu →
      ∀ p, rendezvous_port st task = Except.ok p →
        (createdOf (process_task st task)).length = task.gpu ∧
        (createdOf (process_task st task)).map rankOf =
          List.range task.gpu ∧
        (∀ t ∈ createdOf (process_task st task),
          portOf t = some p ∧ worldOf t = some task.gpu) ∧
        parentStatusOf (process_task st task) = some TaskStatus.Queued) ∧
    (total_free (candidates st task) < task.gpu →
      process_task st task = Except.ok ⟨st, task, [], []⟩) := by
  constructor
  · intro hfree p hport
    have hcollen := collected_length_of_exact st task hfree
    have hne : collected st task ≠ [] := by
      intro h
      rw [h] at hcollen
      simp at hcollen
      omega
    obtain ⟨first, rest, hcol⟩ := List.exists_cons_of_ne_nil hne
    have hpt := process_task_gpu_eval st task first rest p
      (by omega) (by omega) hcol hport
    have hforall := dispatch_ranks_created task p (first :: rest) first.1
      (first :: rest) st 0
    have htslen : (first :: rest).length = task.gpu := by
      rw [← hcol]
      exact hcollen
    refine ⟨?_, ?_, ?_, ?_⟩
    · rw [hpt]
      show (dispatch_ranks task p (first :: rest) first.1 st
        (first :: rest) 0).2.1.length = task.gpu
      rw [← hforall.length_eq]
      exact htslen
    · rw [hpt]
      show (dispatch_ranks task p (first :: rest) first.1 st
        (first :: rest) 0).2.1.map rankOf = List.range task.gpu
      rw [dispatch_ranks_rank, htslen, List.range_eq_range']
    · rw [hpt]
      intro t ht
      obtain ⟨x, _, hx⟩ := forall₂_exists_left _ _ _ hforall t ht
      obtain ⟨_, _, _, _, di, hdi, hp, hw, _⟩ := hx
      constructor
      · rw [portOf, hdi, Option.map_some', hp]
      · rw [worldOf, hdi, Option.map_some', hw]
    · rw [hpt]
      rfl
  · intro hlt
    unfold process_task
    rw [if_pos (by omega)]

/-- A computer with 2 free GPU slots. -/
def c3_comp : Computer := ⟨"comp1", "192.168.0.5", 8, 16, [0, 0], [], 8, 16, 2⟩

/-- A supervisor state with one computer, its default queue alive and
docker port range 5000-5010. -/
def c3_st : SupState :=
  ⟨["comp1_default"], [c3_comp], 10, fun _ _ => (5000, 5010)⟩

/-- A task requesting 2 GPUs. -/
def c3_task : Task :=
  ⟨4, "train", TaskStatus.NotRan, false, 1, 1, 2, none, none, none, none,
   none, true, none⟩

/-- Witness for `multi_gpu_placement_exact`: two free slots, a 2-GPU
task, port 5000 allocated. -/
theorem multi_gpu_placement_exact_witness :
    (createdOf (process_task c3_st c3_task)).length = c3_task.gpu ∧
    (createdOf (process_task c3_st c3_task)).map rankOf =
      List.range c3_task.gpu ∧
    (∀ t ∈ createdOf (process_task c3_st c3_task),
      portOf t = some 5000 ∧ worldOf t = some c3_task.gpu) ∧
    parentStatusOf (process_task c3_st c3_task) = some TaskStatus.Queued :=
  (multi_gpu_placement_exact c3_st c3_task (by decide)).1
    (by decide) 5000 rfl

/-- C8 counterexample: a 2-GPU task placed entirely on one computer
(IP 192.168.0.5).  Both ranks — including rank 1 — get rendezvous
address "localhost", so the address of a non-zero rank is NOT the IP of the
computer of rank 0. -/
theorem same_host_rank_gets_localhost :
    (createdOf (process_task c3_st c3_task)).map
        (fun t => t.distr_info.map DistrInfo.master_addr) =
      [some "localhost", some "localhost"] ∧
    c3_comp.ip = "192.168.0.5" ∧
    ("localhost" : String) ≠ "192.168.0.5" :=
  ⟨rfl, rfl, by decide⟩

/-- C8 amended: the rendezvous address of each service task is
"localhost" exactly when the task runs on the rendezvous host (the
first collected tuple's computer) and the rendezvous host's IP
otherwise; rank 0, which always runs on the rendezvous host, always
gets "localhost". -/
theorem rendezvous_addr_rule (st : SupState) (task : Task)
    (first : TSend) (rest : List TSend) (p : Nat)
    (hfree : ¬ task.gpu > total_free (candidates st task))
    (hg : 0 < task.gpu)
    (hcol : collected st task = first :: rest)
    (hport : rendezvous_port st task = Except.ok p) :
    List.Forall₂ (fun (x : TSend) (t : Task) =>
        t.computer_assigned = some x.1.name ∧
        ∃ di, t.distr_info = some di ∧
          di.master_addr =
            (if x.1.name = first.1.name then "localhost" else first.1.ip))
      (first :: rest) (createdOf (process_task st task)) ∧
    (∃ t0 created', createdOf (process_task st task) = t0 :: created' ∧
      ∃ di0, t0.distr_info = some di0 ∧ di0.rank = 0 ∧
        di0.master_addr = "localhost") := by
  have hpt := process_task_gpu_eval st task first rest p hfree hg hcol hport
  have hforall := dispatch_ranks_created task p (first :: rest) first.1
    (first :: rest) st 0
  have hrank := dispatch_ranks_rank task p (first :: rest) first.1
    (first :: rest) st 0
  constructor
  · rw [hpt]
    show List.Forall₂ _ (first :: rest)
      (dispatch_ranks task p (first :: rest) first.1 st (first :: rest) 0).2.1
    refine List.Forall₂.imp ?_ hforall
    intro x t hx
    obtain ⟨hca, _, _, _, di, hdi, _, _, haddr⟩ := hx
    exact ⟨hca, di, hdi, haddr⟩
  · rw [hpt]
    show ∃ t0 created',
      (dispatch_ranks task p (first :: rest) first.1 st (first :: rest) 0).2.1
        = t0 :: created' ∧ ∃ di0, t0.distr_info = some di0 ∧ di0.rank = 0 ∧
          di0.master_addr = "localhost"
    obtain ⟨t0, created', hR, hrest2, hshape⟩ :=
      List.forall₂_cons_left_iff.mp hforall
    obtain ⟨_, _, _, _, di, hdi, _, _, haddr⟩ := hR
    have hr0 : di.rank = 0 := by
      rw [hshape, List.length_cons, List.range'_succ, List.map_cons] at hrank
      injection hrank with h1 h2
      have h3 : rankOf t0 = di.rank := by
        unfold rankOf
        rw [hdi]
      rw [← h3, h1]
    refine ⟨t0, created', hshape, di, hdi, hr0, ?_⟩
    rw [haddr, if_pos rfl]

/-- Witness for `rendezvous_addr_rule` on the concrete two-GPU
placement. -/
theorem rendezvous_addr_rule_witness :
    List.Forall₂ (fun (x : TSend) (t : Task) =>
        t.computer_assigned = some x.1.name ∧
        ∃ di, t.distr_info = some di ∧
          di.master_addr =
            (if x.1.name = c3_comp.name then "localhost" else c3_comp.ip))
      [(c3_comp, "comp1_default", 0), (c3_comp, "comp1_default", 1)]
      (createdOf (process_task c3_st c3_task)) :=
  (rendezvous_addr_rule c3_st c3_task (c3_comp, "comp1_default", 0)
    [(c3_comp, "comp1_default", 1)] 5000 (by decide) (by decide) rfl rfl).1

/-! ## C9: the reserved-port set and rendezvous-port stability -/

theorem find_port_name_ports (dp : String → String → Nat × Nat)
    (c c' : Computer) (hn : c.name = c'.name) (hp : c.ports = c'.ports)
    (dn : String) : find_port dp c dn = find_port dp c' dn := by
  unfold find_port
  rw [hn, hp]

theorem find_port_list_congr (dp : String → String → Nat × Nat) :
    ∀ (cs cs' : List Computer),
      cs.map (fun c => (c.name, c.ports)) =
        cs'.map (fun c => (c.name, c.ports)) →
      ∀ name dn,
        (cs.find? (fun c => c.name == name)).map
            (fun c => find_port dp c dn) =
          (cs'.find? (fun c => c.name == name)).map
            (fun c => find_port dp c dn) := by
  intro cs
  induction cs with
  | nil =>
    intro cs' h name dn
    cases cs' with
    | nil => rfl
    | cons c' cs₂ => simp at h
  | cons c cs ih =>
    intro cs' h name dn
    cases cs' with
    | nil => simp at h
    | cons c' cs₂ =>
      simp only [List.map_cons, List.cons.injEq] at h
      obtain ⟨hhead, htail⟩ := h
      have hn : c.name = c'.name := congrArg Prod.fst hhead
      have hp : c.ports = c'.ports := congrArg Prod.snd hhead
      by_cases hb : (c'.name == name) = true
      · rw [@List.find?_cons_of_pos _ (fun c => c.name == name) c cs
            (by show (c.name == name) = true; rw [hn]; exact hb),
            @List.find?_cons_of_pos _ (fun c => c.name == name) c' cs₂ hb]
        simp only [Option.map_some']
        rw [find_port_name_ports dp c c' hn hp dn]
      · rw [@List.find?_cons_of_neg _ (fun c => c.name == name) c cs
            (by show ¬ (c.name == name) = true; rw [hn]; exact hb),
            @List.find?_cons_of_neg _ (fun c => c.name == name) c' cs₂ hb]
        exact ih cs₂ htail name dn

theorem find_port_by_name_congr (st st' : SupState)
    (hmap : st.computers.map (fun c => (c.name, c.ports)) =
            st'.computers.map (fun c => (c.name, c.ports)))
    (hdp : st.dp = st'.dp) (name dn : String) :
    find_port_by_name st name dn = find_port_by_name st' name dn := by
  unfold find_port_by_name
  rw [hdp]
  exact find_port_list_congr st'.dp st.computers st'.computers hmap name dn

/-- `process_task` never changes the name or reserved-port set of any
computer, never changes the port registry or the queue list, only grows the
fresh-id counter, keeps the id of the processed task, and dispatches only
the task itself or freshly created service tasks. -/
theorem process_task_out (st : SupState) (task : Task) (out : ProcOut)
    (h : process_task st task = Except.ok out) :
    out.state.computers.map (fun c => (c.name, c.ports)) =
      st.computers.map (fun c => (c.name, c.ports)) ∧
    out.state.dp = st.dp ∧
    out.state.queues = st.queues ∧
    st.next_id ≤ out.state.next_id ∧
    out.task.id = task.id ∧
    (∀ d ∈ out.dispatched, d.1 = task.id ∨ st.next_id ≤ d.1) := by
  by_cases h1 : task.gpu > total_free (candidates st task)
  · unfold process_task at h
    rw [if_pos h1] at h
    obtain rfl := Except.ok.inj h
    exact ⟨rfl, rfl, rfl, Nat.le_refl _, rfl, fun d hd => by cases hd⟩
  · by_cases h2 : task.gpu > 0
    · cases hcol : collected st task with
      | nil =>
        unfold process_task at h
        rw [if_neg h1, if_pos h2, hcol] at h
        obtain rfl := Except.ok.inj h
        exact ⟨rfl, rfl, rfl, Nat.le_refl _, rfl, fun d hd => by cases hd⟩
      | cons first rest =>
        cases hport : rendezvous_port st task with
        | error e =>
          unfold process_task at h
          rw [if_neg h1, if_pos h2, hcol, hport] at h
          exact Except.noConfusion h
        | ok p =>
          have hpt := process_task_gpu_eval st task first rest p h1 h2
            hcol hport
          rw [hpt] at h
          obtain rfl := Except.ok.inj h
          obtain ⟨hf1, hf2, hf3, hf4⟩ := dispatch_ranks_frame task p
            (first :: rest) first.1 (first :: rest) st 0
          refine ⟨hf1, hf3, hf2, hf4, rfl, ?_⟩
          intro d hd
          exact Or.inr (dispatch_ranks_ids task p (first :: rest) first.1
            (first :: rest) st 0 d hd)
    · cases hcand : candidates st task with
      | nil =>
        unfold process_task at h
        rw [if_neg h1, if_neg h2, hcand] at h
        obtain rfl := Except.ok.inj h
        exact ⟨rfl, rfl, rfl, Nat.le_refl _, rfl, fun d hd => by cases hd⟩
      | cons c rest =>
        unfold process_task at h
        rw [if_neg h1, if_neg h2, hcand] at h
        obtain rfl := Except.ok.inj h
        obtain ⟨hf1, hf2, hf3, hf4⟩ := celery_state_frame st task
          (queue_of c task.dag_docker_img) c.name
        refine ⟨hf1, hf4, hf2, Nat.le_of_eq hf3.symm, rfl, ?_⟩
        intro d hd
        rcases List.mem_cons.mp hd with hd | hd
        · rw [hd]
          exact Or.inl rfl
        · cases hd

/-- C9: placing a task never adds the allocated rendezvous port to any
in-memory reserved-port set of any computer — the name/ports view of the
computer snapshot is unchanged — so the first free port of every
computer is the same before and after a placement, and after two
placements in the same tick; hence two multi-GPU tasks placed in one
tick with the same rendezvous host (and docker name) are assigned the
same rendezvous port. -/
theorem ports_not_reserved_within_tick (st : SupState) (task : Task)
    (out : ProcOut) (h : process_task st task = Except.ok out) :
    out.state.computers.map (fun c => (c.name, c.ports)) =
      st.computers.map (fun c => (c.name, c.ports)) ∧
    (∀ name dn, find_port_by_name out.state name dn =
      find_port_by_name st name dn) ∧
    (∀ task2 out2, process_task out.state task2 = Except.ok out2 →
      ∀ name dn, find_port_by_name out2.state name dn =
        find_port_by_name st name dn) := by
  obtain ⟨h1, h2, _, _, _, _⟩ := process_task_out st task out h
  refine ⟨h1, ?_, ?_⟩
  · intro name dn
    exact find_port_by_name_congr out.state st h1 h2 name dn
  · intro task2 out2 h2' name dn
    obtain ⟨h1', h2'', _, _, _, _⟩ := process_task_out out.state task2 out2 h2'
    exact (find_port_by_name_congr out2.state out.state h1' h2'' name dn).trans
      (find_port_by_name_congr out.state st h1 h2 name dn)

/-- A cpu-only task placeable on `c3_comp`. -/
def c9_task : Task :=
  ⟨6, "cpuonly", TaskStatus.NotRan, false, 1, 1, 0, none, none, none, none,
   none, true, none⟩

/-- Witness for `ports_not_reserved_within_tick`: after placing a
cpu-only task on comp1, the first free port of comp1 is unchanged. -/
theorem ports_not_reserved_within_tick_witness :
    find_port_by_name
        (ProcOut.mk (celery_state c3_st c9_task "comp1_default" "comp1").1
          (celery_state c3_st c9_task "comp1_default" "comp1").2.1 []
          [(celery_state c3_st c9_task "comp1_default" "comp1").2.2]).state
        "comp1" "default" =
      find_port_by_name c3_st "comp1" "default" :=
  (ports_not_reserved_within_tick c3_st c9_task
    (ProcOut.mk (celery_state c3_st c9_task "comp1_default" "comp1").1
      (celery_state c3_st c9_task "comp1_default" "comp1").2.1 []
      [(celery_state c3_st c9_task "comp1_default" "comp1").2.2])
    rfl).2.1 "comp1" "default"

/-! ## C10: debug tasks are outside the tick -/

/-- One gate/placement iteration keeps the id of the processed task, only
grows the fresh-id counter, and dispatches only the task itself or
fresh ids. -/
theorem process_tasks_step_out (dep : Nat → List TaskStatus) (st : SupState)
    (task : Task) (r : SupState × Task × List Task × List (Nat × String))
    (h : process_tasks_step dep st task = Except.ok r) :
    r.2.1.id = task.id ∧ st.next_id ≤ r.1.next_id ∧
    (∀ d ∈ r.2.2.2, d.1 = task.id ∨ st.next_id ≤ d.1) := by
  unfold process_tasks_step at h
  split at h
  · obtain rfl := (Except.ok.inj h).symm
    exact ⟨rfl, Nat.le_refl _, fun d hd => by cases hd⟩
  · split at h
    · obtain rfl := (Except.ok.inj h).symm
      exact ⟨rfl, Nat.le_refl _, fun d hd => by cases hd⟩
    · split at h
      · obtain rfl := (Except.ok.inj h).symm
        exact ⟨rfl, Nat.le_refl _, fun d hd => by cases hd⟩
      · split at h
        · exact Except.noConfusion h
        · rename_i out hout
          obtain rfl := (Except.ok.inj h).symm
          obtain ⟨_, _, _, hnext, hid, hdisp⟩ :=
            process_task_out st task out hout
          exact ⟨hid, hnext, hdisp⟩

/-- The gate/placement loop over a task list: the updated tasks carry
exactly the input ids, the fresh-id counter only grows, and every
dispatched id is either the id of an input task or a fresh id. -/
theorem process_tasks_out (dep : Nat → List TaskStatus) :
    ∀ (l : List Task) (st : SupState) (out : TasksOut),
      process_tasks dep st l = Except.ok out →
      out.tasks.map Task.id = l.map Task.id ∧
      st.next_id ≤ out.state.next_id ∧
      (∀ d ∈ out.dispatched, d.1 ∈ l.map Task.id ∨ st.next_id ≤ d.1) := by
  intro l
  induction l with
  | nil =>
    intro st out h
    obtain rfl := (Except.ok.inj h).symm
    exact ⟨rfl, Nat.le_refl _, fun d hd => by cases hd⟩
  | cons t rest ih =>
    intro st out h
    unfold process_tasks at h
    split at h
    · exact Except.noConfusion h
    · rename_i st1 t1 cr ds hstep
      split at h
      · exact Except.noConfusion h
      · rename_i out1 hrest
        obtain rfl := (Except.ok.inj h).symm
        have hstepout := process_tasks_step_out dep st t (st1, t1, cr, ds)
          hstep
        have hid : t1.id = t.id := hstepout.1
        have hnext : st.next_id ≤ st1.next_id := hstepout.2.1
        have hdisp : ∀ d ∈ ds, d.1 = t.id ∨ st.next_id ≤ d.1 := hstepout.2.2
        obtain ⟨hids1, hnext1, hdisp1⟩ := ih st1 out1 hrest
        refine ⟨?_, Nat.le_trans hnext hnext1, ?_⟩
        · simp only [List.map_cons, hids1, hid]
        · intro d hd
          rcases List.mem_append.mp hd with hd | hd
          · rcases hdisp d hd with hd' | hd'
            · exact Or.inl (by rw [hd']; exact List.mem_cons_self _ _)
            · exact Or.inr hd'
          · rcases hdisp1 d hd with hd' | hd'
            · exact Or.inl (List.mem_cons_of_mem _ hd')
            · exact Or.inr (Nat.le_trans hnext hd')

/-- A task with the debug flag set is not in the not-ran set of the tick. -/
theorem debug_not_in_not_ran (store : List Task) (t : Task)
    (hdbg : t.debug = true) : t ∉ load_not_ran store := by
  intro hmem
  have := (List.mem_filter.mp hmem).2
  rw [hdbg] at this
  exact Bool.noConfusion this

/-- C10: a NotRan task whose debug flag is set is excluded from the
not-ran set of the tick, so the gate/placement loop over that set never
touches it: no updated task carries its id and no dispatch names its
id (the loop only dispatches the listed tasks or freshly created
service tasks, whose ids are at least the next fresh id of the store). -/
theorem debug_task_excluded (store : List Task) (st : SupState)
    (dep : Nat → List TaskStatus) (t : Task)
    (hdbg : t.debug = true) (ht : t ∈ store)
    (hnodup : (store.map Task.id).Nodup)
    (hfresh : ∀ u ∈ store, u.id < st.next_id) :
    t ∉ load_not_ran store ∧
    ∀ out, process_tasks dep st (load_not_ran store) = Except.ok out →
      (∀ u ∈ out.tasks, u.id ≠ t.id) ∧
      (∀ d ∈ out.dispatched, d.1 ≠ t.id) := by
  have hnot := debug_not_in_not_ran store t hdbg
  have hsub : ∀ u ∈ load_not_ran store, u ∈ store := by
    intro u hu
    exact List.mem_of_mem_filter (List.mem_of_mem_filter hu)
  have hkey : ∀ i ∈ (load_not_ran store).map Task.id, i ≠ t.id := by
    intro i hi hit
    obtain ⟨v, hv, hvi⟩ := List.mem_map.mp hi
    have hveq : v = t :=
      List.inj_on_of_nodup_map hnodup (hsub v hv) ht (by rw [hvi, hit])
    rw [hveq] at hv
    exact hnot hv
  refine ⟨hnot, ?_⟩
  intro out hout
  obtain ⟨hids, _, hdisp⟩ := process_tasks_out dep (load_not_ran store) st
    out hout
  constructor
  · intro u hu hut
    have : u.id ∈ out.tasks.map Task.id := List.mem_map.mpr ⟨u, hu, rfl⟩
    rw [hids] at this
    exact hkey u.id this hut
  · intro d hd hdt
    rcases hdisp d hd with hd' | hd'
    · exact hkey d.1 hd' hdt
    · have := hfresh t ht
      omega

/-- A debug NotRan task. -/
def c10_debug_task : Task :=
  ⟨1, "dbg", TaskStatus.NotRan, true, 1, 1, 0, none, none, none, none, none,
   true, none⟩

/-- Store and state for the C10 witness. -/
def c10_store : List Task := [c10_debug_task]

def c10_st : SupState := ⟨[], [], 5, fun _ _ => (0, 0)⟩

def c10_dep : Nat → List TaskStatus := fun _ => []

/-- Witness for `debug_task_excluded` at a concrete store. -/
theorem debug_task_excluded_witness :
    c10_debug_task ∉ load_not_ran c10_store :=
  (debug_task_excluded c10_store c10_st c10_dep c10_debug_task rfl
    (by decide) (by decide) (by decide)).1

end MLComp
